import Mathlib

/-
  Verification of the ipc named-pipe transport and its binary codec.

  A shallow embedding of `serialization.h`, `pipes.h` and `concurrency.cpp`:
  byte buffers are `List Nat` (each entry a byte value), `size_t` arithmetic is
  modelled modulo 2^64 where the source can wrap, fallible operations return
  `Except String`, and the asynchronous connection machinery is modelled as
  explicit state-transition systems driven by OS completion events.
-/

namespace Ipc

/-! ## Codec model (`serialization.h`) -/

/-- Little-endian byte representation of a value stored in `w` bytes, as
written by `target.Put(reinterpret_cast<const uint8_t*>(&val), sizeof(val))`
on a little-endian machine. -/
def leBytes : Nat → Nat → List Nat
  | 0, _ => []
  | w + 1, v => v % 256 :: leBytes w (v / 256)

/-- Value obtained by reinterpreting a little-endian byte sequence
(`*reinterpret_cast<const T*>(ptr)`). -/
def leVal : List Nat → Nat
  | [] => 0
  | b :: bs => b + 256 * leVal bs

/-- `size_t` subtraction: C++ unsigned arithmetic wraps modulo 2^64
(for operands below 2^64). -/
def sub64 (a b : Nat) : Nat := (2 ^ 64 + a - b) % 2 ^ 64

/-- State of a `VectorDeserializationBufferAdapter`: the adapted vector and the
current read position. -/
structure VectorDeserializationBufferAdapter where
  buffer_ : List Nat
  pos_ : Nat
deriving DecidableEq, Repr

/-- `VectorDeserializationBufferAdapter::Take`. Returns the result of the call
(`none` models the `nullptr` returned for `dataSize == 0`, `some p` a pointer to
offset `p` of the underlying vector) together with the adapter state after the
call; on a throw the state is unchanged since the throw happens before
`pos_ += dataSize`. The availability check `dataSize > buffer_.size() - pos_`
uses `size_t` subtraction, hence `sub64`. -/
def VectorDeserializationBufferAdapter.Take
    (st : VectorDeserializationBufferAdapter) (dataSize : Nat) :
    Except String (Option Nat) × VectorDeserializationBufferAdapter :=
  if dataSize = 0 then (.ok none, st)
  else if sub64 st.buffer_.length st.pos_ < dataSize then
    (.error "Data of requested size not available.", st)
  else (.ok (some st.pos_), { st with pos_ := st.pos_ + dataSize })

/-- `serialize` for non-string types: appends the `w`-byte raw representation
of `val` to the sink (`VectorSerializationBufferAdapter::Put` appends to the
vector). -/
def serialize (w v : Nat) (target : List Nat) : List Nat :=
  target ++ leBytes w v

/-- `serialize` for `std::basic_string<TChar>` with `sizeof(TChar) = c`:
serializes `len + 1` as a `size_t` (8 bytes), then the raw character units,
then one zero terminator unit. -/
def serializeString (c : Nat) (str : List Nat) (target : List Nat) : List Nat :=
  serialize c 0 (serialize 8 (str.length + 1) target ++ (str.map (leBytes c)).flatten)

/-- `deserialize` for non-string `T` with `sizeof(T) = w`: takes `w` bytes and
reinterprets them. The `none` branch (only possible for `w = 0`, a size no C++
type has) marks the undefined behavior of dereferencing a null pointer. -/
def deserializePrim (w : Nat) (st : VectorDeserializationBufferAdapter) :
    Except String (Nat × VectorDeserializationBufferAdapter) :=
  match st.Take w with
  | (.error e, _) => .error e
  | (.ok none, _) => .error "UB: null pointer dereference"
  | (.ok (some p), st1) => .ok (leVal ((st.buffer_.drop p).take w), st1)

/-- Fuel-indexed version of the scan performed by the
`std::basic_string(const Char_t*)` constructor: starting at the returned
pointer, read `c`-byte character units from the underlying memory until a zero
unit is found (the zero unit is not part of the result). `none` marks
undefined behavior: reading past the end of the vector, or a zero-sized
character type. The fuel only serves structural termination; each step
consumes at least one byte, so `bytes.length + 1` fuel is always enough. -/
def scanUnitsFuel : Nat → Nat → List Nat → Option (List Nat)
  | 0, _, _ => none
  | fuel + 1, c, bytes =>
    if c = 0 ∨ bytes.length < c then none
    else if leVal (bytes.take c) = 0 then some []
    else
      match scanUnitsFuel fuel c (bytes.drop c) with
      | none => none
      | some s => some (leVal (bytes.take c) :: s)

/-- The `basic_string` pointer-constructor scan with sufficient fuel. -/
def scanUnits (c : Nat) (bytes : List Nat) : Option (List Nat) :=
  scanUnitsFuel (bytes.length + 1) c bytes

/-- `deserialize` for `std::basic_string` with `sizeof(TChar) = c`: reads the
`size_t` length field, calls `source.Take(lenPlusTerminator)` (a byte count,
even for multi-byte character types), and builds the result with the
`basic_string` pointer constructor, which scans memory from the returned
pointer until a zero character unit. -/
def deserializeString (c : Nat) (st : VectorDeserializationBufferAdapter) :
    Except String (List Nat × VectorDeserializationBufferAdapter) :=
  match deserializePrim 8 st with
  | .error e => .error e
  | .ok (lenPlusTerminator, st1) =>
    match st1.Take lenPlusTerminator with
    | (.error e, _) => .error e
    | (.ok none, _) => .error "UB: null pointer dereference"
    | (.ok (some p), st2) =>
      match scanUnits c (st1.buffer_.drop p) with
      | none => .error "UB: scan past end of buffer"
      | some s => .ok (s, st2)

/-! ### Codec lemmas -/

theorem leBytes_length (w v : Nat) : (leBytes w v).length = w := by
  induction w generalizing v with
  | zero => rfl
  | succ w ih => simp [leBytes, ih]

theorem leVal_leBytes (w v : Nat) (h : v < 256 ^ w) : leVal (leBytes w v) = v := by
  induction w generalizing v with
  | zero =>
    simp only [Nat.pow_zero, Nat.lt_one_iff] at h
    simp [h, leBytes, leVal]
  | succ w ih =>
    have hdiv : v / 256 < 256 ^ w := by
      rw [Nat.div_lt_iff_lt_mul (by norm_num)]
      calc v < 256 ^ (w + 1) := h
        _ = 256 ^ w * 256 := by ring
    simp [leBytes, leVal, ih _ hdiv, Nat.mod_add_div]

theorem sub64_eq (a b : Nat) (hba : b ≤ a) (ha : a < 2 ^ 64) : sub64 a b = a - b := by
  unfold sub64
  have h1 : 2 ^ 64 + a - b = 2 ^ 64 + (a - b) := by omega
  rw [h1, Nat.add_mod_left, Nat.mod_eq_of_lt (by omega)]

theorem take_append_of_length (l1 l2 : List Nat) (n : Nat) (h : l1.length = n) :
    (l1 ++ l2).take n = l1 := by
  subst h
  exact List.take_left l1 l2

theorem drop_append_of_length (l1 l2 : List Nat) (n : Nat) (h : l1.length = n) :
    (l1 ++ l2).drop n = l2 := by
  subst h
  exact List.drop_left l1 l2

theorem take_of_length_eq (l : List Nat) (n : Nat) (h : l.length = n) :
    l.take n = l := by
  subst h
  exact List.take_length l

theorem flatten_map_leBytes_length (c : Nat) (str : List Nat) :
    ((str.map (leBytes c)).flatten).length = str.length * c := by
  induction str with
  | nil => simp
  | cons u rest ih =>
    simp only [List.map_cons, List.flatten_cons, List.length_append, ih,
      leBytes_length, List.length_cons]
    ring

/-- A successful `Take`, spelled out. -/
theorem Take_eq_ok (st : VectorDeserializationBufferAdapter) (n : Nat)
    (hn : n ≠ 0) (hpos : st.pos_ ≤ st.buffer_.length)
    (hlen : st.buffer_.length < 2 ^ 64)
    (hav : n ≤ st.buffer_.length - st.pos_) :
    st.Take n = (.ok (some st.pos_), { st with pos_ := st.pos_ + n }) := by
  unfold VectorDeserializationBufferAdapter.Take
  rw [if_neg hn, sub64_eq _ _ hpos hlen, if_neg (by omega)]

/-- A successful primitive deserialization, spelled out. -/
theorem deserializePrim_eq (st : VectorDeserializationBufferAdapter) (w : Nat)
    (hw : w ≠ 0) (hpos : st.pos_ ≤ st.buffer_.length)
    (hlen : st.buffer_.length < 2 ^ 64)
    (hav : w ≤ st.buffer_.length - st.pos_) :
    deserializePrim w st =
      .ok (leVal ((st.buffer_.drop st.pos_).take w),
        { st with pos_ := st.pos_ + w }) := by
  unfold deserializePrim
  rw [Take_eq_ok st w hw hpos hlen hav]

theorem scanUnitsFuel_encoded (c : Nat) (hc : 0 < c) (str : List Nat)
    (hstr : ∀ u ∈ str, u < 256 ^ c ∧ u ≠ 0) :
    ∀ fuel, str.length + 1 ≤ fuel →
      scanUnitsFuel fuel c ((str.map (leBytes c)).flatten ++ leBytes c 0) =
        some str := by
  induction str with
  | nil =>
    intro fuel hfuel
    match fuel, hfuel with
    | f + 1, _ =>
      simp only [List.map_nil, List.flatten_nil, List.nil_append, scanUnitsFuel]
      rw [if_neg (by simp [leBytes_length]; omega)]
      rw [take_of_length_eq _ c (leBytes_length c 0),
        leVal_leBytes c 0 (Nat.pos_pow_of_pos c (by norm_num))]
      simp
  | cons u rest ih =>
    intro fuel hfuel
    match fuel, hfuel with
    | f + 1, hf =>
      have hu := hstr u (List.mem_cons_self u rest)
      have hbytes : ((u :: rest).map (leBytes c)).flatten ++ leBytes c 0 =
          leBytes c u ++ ((rest.map (leBytes c)).flatten ++ leBytes c 0) := by
        simp [List.append_assoc]
      rw [hbytes, scanUnitsFuel]
      rw [if_neg (by
        simp only [not_or, not_lt, List.length_append, leBytes_length]
        omega)]
      rw [take_append_of_length _ _ c (leBytes_length c u),
        leVal_leBytes c u hu.1, if_neg hu.2,
        drop_append_of_length _ _ c (leBytes_length c u)]
      rw [ih (fun x hx => hstr x (List.mem_cons_of_mem u hx)) f (by
        simp only [List.length_cons] at hf
        omega)]

theorem deserialize_serialize_prim (w v : Nat) (hw : 0 < w) (hw64 : w < 2 ^ 64)
    (hv : v < 256 ^ w) :
    deserializePrim w ⟨serialize w v [], 0⟩ =
      .ok (v, ⟨serialize w v [], w⟩) := by
  have hlen : (serialize w v []).length = w := by
    simp [serialize, leBytes_length]
  rw [deserializePrim_eq _ w (by omega) (by simp) (by rw [hlen]; exact hw64)
      (by simp [hlen])]
  simp only [List.drop_zero, Nat.zero_add]
  rw [show serialize w v [] = leBytes w v from by simp [serialize],
    take_of_length_eq _ w (leBytes_length w v), leVal_leBytes w v hv]

theorem deserialize_serialize_string (c : Nat) (str : List Nat) (hc : 0 < c)
    (hstr : ∀ u ∈ str, u < 256 ^ c ∧ u ≠ 0)
    (hfit : 8 + str.length * c + c < 2 ^ 64) :
    deserializeString c ⟨serializeString c str [], 0⟩ =
      .ok (str, ⟨serializeString c str [], 8 + (str.length + 1)⟩) := by
  set L := str.length with hL
  set payload := (str.map (leBytes c)).flatten with hpayload
  have hbufeq : serializeString c str [] =
      leBytes 8 (L + 1) ++ (payload ++ leBytes c 0) := by
    simp [serializeString, serialize, List.append_assoc]
  have hplen : payload.length = L * c := flatten_map_leBytes_length c str
  have hbuflen : (serializeString c str []).length = 8 + (L * c + c) := by
    rw [hbufeq]
    simp [leBytes_length, hplen]
  have hLlt : L + 1 ≤ L * c + c := by
    calc L + 1 = (L + 1) * 1 := by ring
      _ ≤ (L + 1) * c := Nat.mul_le_mul_left _ hc
      _ = L * c + c := by ring
  have hbuf64 : (serializeString c str []).length < 2 ^ 64 := by
    rw [hbuflen]; omega
  unfold deserializeString
  rw [deserializePrim_eq _ 8 (by norm_num) (by simp) hbuf64 (by simp [hbuflen])]
  simp only [List.drop_zero, Nat.zero_add]
  rw [hbufeq, take_append_of_length _ _ 8 (leBytes_length 8 (L + 1)),
    leVal_leBytes 8 (L + 1) (by
      have h256 : (256 : Nat) ^ 8 = 2 ^ 64 := by norm_num
      rw [h256]
      omega)]
  rw [Take_eq_ok ⟨leBytes 8 (L + 1) ++ (payload ++ leBytes c 0), 8⟩ (L + 1)
      (by omega)
      (by simp only [List.length_append, leBytes_length, hplen]; omega)
      (by simp only [List.length_append, leBytes_length, hplen]; omega)
      (by simp only [List.length_append, leBytes_length, hplen]; omega)]
  dsimp only
  rw [drop_append_of_length _ _ 8 (leBytes_length 8 (L + 1))]
  rw [show scanUnits c (payload ++ leBytes c 0) = some str from by
    unfold scanUnits
    exact scanUnitsFuel_encoded c hc str hstr _ (by
      simp only [List.length_append, hplen, leBytes_length]
      have : L * 1 ≤ L * c := Nat.mul_le_mul_left L hc
      omega)]

/-- C2 counterexample: the claim quantifies over every string, but the
length-1 `char` string consisting of a single zero character does not
round-trip: deserialization rebuilds the string with the `basic_string`
pointer constructor, which stops at the first zero character unit, so the
result is the empty string rather than the original one-character string. -/
theorem serialization_round_trip_cx :
    deserializeString 1 ⟨serializeString 1 [0] [], 0⟩ =
      .ok ([], ⟨serializeString 1 [0] [], 10⟩) ∧
    ([] : List Nat) ≠ [0] := by
  constructor
  · rfl
  · decide

/-- C2 (amended): for every primitive value `v` of width `w` with
`v < 256 ^ w`, `deserialize(serialize(v)) = v`; and for every string over a
character type of width `c ≥ 1` whose character units are all nonzero (and
representable in `c` bytes), serializing and then deserializing from the
resulting buffer yields a string equal to the original, with the trailing zero
terminator discarded by deserialization. -/
theorem serialization_round_trip (w v c : Nat) (str : List Nat)
    (hw : 0 < w) (hw64 : w < 2 ^ 64) (hv : v < 256 ^ w)
    (hc : 0 < c) (hstr : ∀ u ∈ str, u < 256 ^ c ∧ u ≠ 0)
    (hfit : 8 + str.length * c + c < 2 ^ 64) :
    deserializePrim w ⟨serialize w v [], 0⟩ = .ok (v, ⟨serialize w v [], w⟩) ∧
    deserializeString c ⟨serializeString c str [], 0⟩ =
      .ok (str, ⟨serializeString c str [], 8 + (str.length + 1)⟩) :=
  ⟨deserialize_serialize_prim w v hw hw64 hv,
    deserialize_serialize_string c str hc hstr hfit⟩

/-- C2 witness: the 4-byte value `305419896` and the two-character wide string
`[104, 105]` (character width 2) both round-trip. -/
theorem serialization_round_trip_witness :
    deserializePrim 4 ⟨serialize 4 305419896 [], 0⟩ =
      .ok (305419896, ⟨serialize 4 305419896 [], 4⟩) ∧
    deserializeString 2 ⟨serializeString 2 [104, 105] [], 0⟩ =
      .ok ([104, 105], ⟨serializeString 2 [104, 105] [], 8 + (2 + 1)⟩) :=
  serialization_round_trip 4 305419896 2 [104, 105] (by decide) (by norm_num)
    (by norm_num) (by decide) (by decide) (by norm_num)

theorem Take_ok_some (st : VectorDeserializationBufferAdapter) (n p : Nat)
    (st2 : VectorDeserializationBufferAdapter)
    (h : st.Take n = (.ok (some p), st2)) :
    st2.buffer_ = st.buffer_ ∧ st2.pos_ = st.pos_ + n ∧ p = st.pos_ ∧
      ¬ sub64 st.buffer_.length st.pos_ < n ∧ n ≠ 0 := by
  unfold VectorDeserializationBufferAdapter.Take at h
  split at h
  · simp at h
  · split at h
    · simp at h
    · simp only [Except.ok.injEq, Option.some.injEq, Prod.mk.injEq] at h
      refine ⟨by rw [← h.2], by rw [← h.2], h.1.symm, by assumption, by assumption⟩

/-- C4: a `Take(n)` requesting more bytes than remain fails with the
"data not available" error and leaves the adapter unchanged; a successful
`Take` never returns a pointer to memory outside the underlying buffer; and a
primitive deserialization whose declared width exceeds the remaining bytes, as
well as a string deserialization whose declared length field exceeds the bytes
remaining after it, fail with the same condition. -/
theorem take_underflow_safe (st : VectorDeserializationBufferAdapter) (n : Nat)
    (hpos : st.pos_ ≤ st.buffer_.length) (hlen : st.buffer_.length < 2 ^ 64) :
    (st.buffer_.length - st.pos_ < n →
      st.Take n = (.error "Data of requested size not available.", st)) ∧
    (∀ p, (st.Take n).1 = .ok (some p) → p + n ≤ st.buffer_.length) ∧
    (0 < n → st.buffer_.length - st.pos_ < n →
      deserializePrim n st = .error "Data of requested size not available.") ∧
    (∀ c L st1, deserializePrim 8 st = .ok (L, st1) →
      st1.buffer_.length - st1.pos_ < L →
      deserializeString c st = .error "Data of requested size not available.") := by
  have hsub := sub64_eq st.buffer_.length st.pos_ hpos hlen
  refine ⟨?_, ?_, ?_, ?_⟩
  · intro hgt
    have hn0 : n ≠ 0 := by omega
    simp [VectorDeserializationBufferAdapter.Take, hn0, hsub, hgt]
  · intro p hp
    unfold VectorDeserializationBufferAdapter.Take at hp
    split at hp
    · simp at hp
    · rw [hsub] at hp
      split at hp
      · simp at hp
      · simp only [Prod.fst] at hp
        injection hp with hp
        injection hp with hp
        omega
  · intro hn0 hgt
    have hn0' : n ≠ 0 := by omega
    simp [deserializePrim, VectorDeserializationBufferAdapter.Take, hn0', hsub, hgt]
  · intro c L st1 hdes hrem
    unfold deserializeString
    rw [hdes]
    have hbuf : st1.buffer_ = st.buffer_ ∧ st.pos_ ≤ st1.pos_ ∧
        st1.pos_ ≤ st1.buffer_.length := by
      unfold deserializePrim at hdes
      rcases hTake : st.Take 8 with ⟨res, stx⟩
      rw [hTake] at hdes
      match res with
      | .error e => simp at hdes
      | .ok none => simp at hdes
      | .ok (some p) =>
        simp only [Except.ok.injEq, Prod.mk.injEq] at hdes
        obtain ⟨hL, hst⟩ := hdes
        subst hst
        obtain ⟨hb, hp, -, hle, -⟩ := Take_ok_some st 8 p stx hTake
        rw [hsub] at hle
        have hblen : stx.buffer_.length = st.buffer_.length := by rw [hb]
        exact ⟨hb, by omega, by omega⟩
    have hsub1 : sub64 st1.buffer_.length st1.pos_ = st1.buffer_.length - st1.pos_ :=
      sub64_eq _ _ hbuf.2.2 (by rw [hbuf.1]; exact hlen)
    have hL0 : L ≠ 0 := by omega
    simp [VectorDeserializationBufferAdapter.Take, hL0, hsub1, hrem]

/-- C4 witness: on a 3-byte buffer at position 1, `Take 5` fails with the
"data not available" error, successful takes stay in bounds, and oversized
primitive and string deserializations fail with the same condition. -/
theorem take_underflow_safe_witness :
    (VectorDeserializationBufferAdapter.mk [7, 8, 9] 1).buffer_.length -
        (VectorDeserializationBufferAdapter.mk [7, 8, 9] 1).pos_ < 5 ∧
    (VectorDeserializationBufferAdapter.mk [7, 8, 9] 1).Take 5 =
      (.error "Data of requested size not available.",
        VectorDeserializationBufferAdapter.mk [7, 8, 9] 1) :=
  ⟨by decide,
    ((take_underflow_safe (VectorDeserializationBufferAdapter.mk [7, 8, 9] 1) 5
      (by decide) (by norm_num)).1 (by decide))⟩

/-- C10: for an adapter whose position is within the buffer, `Take 0` returns
a null pointer and leaves the state unchanged; a failing `Take` leaves the
state unchanged; a successful `Take n` returns a pointer to `n` bytes inside
the buffer starting at the current position and advances the position by
exactly `n`; and every `Take` call preserves `pos_ ≤ buffer_.length`. -/
theorem take_position_invariant (st : VectorDeserializationBufferAdapter) (n : Nat)
    (hpos : st.pos_ ≤ st.buffer_.length) (hlen : st.buffer_.length < 2 ^ 64) :
    st.Take 0 = (.ok none, st) ∧
    (∀ e st2, st.Take n = (.error e, st2) → st2 = st) ∧
    (∀ p st2, st.Take n = (.ok (some p), st2) →
      0 < n ∧ p = st.pos_ ∧ p + n ≤ st.buffer_.length ∧
        st2 = { st with pos_ := st.pos_ + n }) ∧
    (st.Take n).2.pos_ ≤ (st.Take n).2.buffer_.length := by
  have hsub := sub64_eq st.buffer_.length st.pos_ hpos hlen
  refine ⟨by simp [VectorDeserializationBufferAdapter.Take], ?_, ?_, ?_⟩
  · intro e st2 h
    unfold VectorDeserializationBufferAdapter.Take at h
    split at h
    · simp at h
    · split at h
      · exact (Prod.mk.injEq .. ▸ h).2.symm
      · simp at h
  · intro p st2 h
    unfold VectorDeserializationBufferAdapter.Take at h
    split at h
    · simp at h
    · rw [hsub] at h
      split at h
      · simp at h
      · simp only [Except.ok.injEq, Option.some.injEq, Prod.mk.injEq] at h
        refine ⟨by omega, h.1.symm, by omega, h.2.symm⟩
  · unfold VectorDeserializationBufferAdapter.Take
    split
    · simpa
    · rw [hsub]
      split
      · simpa
      · simp only
        omega

/-- C10 witness: on a 3-byte buffer at position 1, `Take 0` is a no-op
returning null, error/success takes behave as stated, and the position
invariant is preserved. -/
theorem take_position_invariant_witness :
    (VectorDeserializationBufferAdapter.mk [7, 8, 9] 1).Take 0 =
      (.ok none, VectorDeserializationBufferAdapter.mk [7, 8, 9] 1) ∧
    ((VectorDeserializationBufferAdapter.mk [7, 8, 9] 1).Take 2).2.pos_ ≤
      ((VectorDeserializationBufferAdapter.mk [7, 8, 9] 1).Take 2).2.buffer_.length :=
  ⟨(take_position_invariant (VectorDeserializationBufferAdapter.mk [7, 8, 9] 1) 2
      (by decide) (by norm_num)).1,
    (take_position_invariant (VectorDeserializationBufferAdapter.mk [7, 8, 9] 1) 2
      (by decide) (by norm_num)).2.2.2⟩

/-! ## Server-side connection model (`CrPipe`, `pipes.h`) -/

/-- Mutable state of a `CrPipe<N, M>`: the fixed read and write buffers and
the two connection flags (the OS handle and the completion-context record are
identity, not data, and are omitted). -/
structure CrPipeSt where
  readBuffer : List Nat
  writeBuffer : List Nat
  isConnectionPending : Bool
  isConnected : Bool
deriving DecidableEq, Repr

/-- Observable effect of a `CrPipe` method call: nothing, an asynchronous
read issued with the given buffer capacity, an asynchronous write issued with
the given bytes, or a disconnect (which also destroys the pipe object). -/
inductive IoOutcome where
  | noop : IoOutcome
  | readIssued (capacity : Nat) : IoOutcome
  | writeIssued (bytes : List Nat) : IoOutcome
  | disconnected : IoOutcome
deriving DecidableEq, Repr

/-- `CrPipe<N, M>::ListenForData` for a pipe with read capacity `N`:
a no-op when not connected; otherwise issues `ReadFileEx` into the read
buffer (`osAccepts` is the OS's synchronous accept/reject of the request) and
disconnects on synchronous rejection. -/
def ListenForData (N : Nat) (osAccepts : Bool) (st : CrPipeSt) :
    CrPipeSt × IoOutcome :=
  if st.isConnected = false then (st, .noop)
  else if osAccepts then (st, .readIssued N)
  else (st, .disconnected)

/-- `CrPipe<N, M>::SendData` for a pipe with write capacity `M`: a no-op when
not connected; otherwise copies `min(dataSize, M)` bytes into the write buffer
and issues `WriteFileEx` on that prefix (the `assert(dataSize <= M)` is a
debug-build check and compiles away in release builds, which is the behavior
the spec documents); disconnects on synchronous rejection. -/
def SendData (M : Nat) (osAccepts : Bool) (st : CrPipeSt) (data : List Nat) :
    CrPipeSt × IoOutcome :=
  if st.isConnected = false then (st, .noop)
  else
    let numBytesSending := min data.length M
    let st1 := { st with
      writeBuffer := data.take numBytesSending ++
        st.writeBuffer.drop numBytesSending }
    if osAccepts then (st1, .writeIssued (st1.writeBuffer.take numBytesSending))
    else (st1, .disconnected)

/-- A callback invocation made by a completion routine: `Disconnect`,
`OnDataReceived`, `OnPartialDataReceived` (each receiving the read buffer and
the byte count) or `OnDataSent`. -/
inductive CompletionEvent where
  | disconnected : CompletionEvent
  | dataReceived (data : List Nat) (dataSize : Nat) : CompletionEvent
  | partialDataReceived (data : List Nat) (dataSize : Nat) : CompletionEvent
  | dataSent : CompletionEvent
deriving DecidableEq, Repr

/-- `CrPipe<N, M>::OnReadCompleted`: on an OS error, disconnect; otherwise
dispatch on the "more data" probe (`GetOverlappedResult` followed by
`GetLastError() == ERROR_MORE_DATA`, passed in as `moreData`):
`OnPartialDataReceived` when the message overflowed the read buffer,
`OnDataReceived` otherwise, in both cases passing the read buffer and the
number of bytes read. -/
def OnReadCompleted (st : CrPipeSt) (err numBytesRead : Nat) (moreData : Bool) :
    CompletionEvent :=
  if err ≠ 0 then .disconnected
  else if moreData then .partialDataReceived st.readBuffer numBytesRead
  else .dataReceived st.readBuffer numBytesRead

/-- `CrPipe<N, M>::OnWriteCompleted`: on an OS error, disconnect; otherwise
invoke `OnDataSent`. -/
def OnWriteCompleted (st : CrPipeSt) (err numBytesWritten : Nat) :
    CompletionEvent :=
  if err ≠ 0 then .disconnected else .dataSent

/-- The read-completion sequence observed while a single message `msg` is
received through a message-mode pipe with read capacity `N` under the default
callback wiring (`OnPartialDataReceived` re-arms the read). Each OS read
completion delivers `min N remaining` bytes into the read buffer and reports
the `ERROR_MORE_DATA` truncation condition exactly when more than `N` bytes of
the message remained. The `0 < N` guard in the recursion condition only
provides termination; with a zero-capacity buffer the source loop would never
drain the message, and all theorems assume `0 < N`. -/
def deliverMessage (N : Nat) (st : CrPipeSt) (msg : List Nat) :
    List CompletionEvent :=
  let n := min N msg.length
  let st1 := { st with readBuffer := msg.take n ++ st.readBuffer.drop n }
  let ev := OnReadCompleted st1 0 n (decide (N < msg.length))
  if h : 0 < N ∧ N < msg.length then ev :: deliverMessage N st1 (msg.drop N)
  else [ev]
termination_by msg.length
decreasing_by
  simp only [List.length_drop]
  omega

/-- The data chunk a completion event delivers to the observer: the first
`dataSize` bytes of the buffer passed to the callback. -/
def CompletionEvent.chunk : CompletionEvent → List Nat
  | .dataReceived data n => data.take n
  | .partialDataReceived data n => data.take n
  | _ => []

/-- Whether an event is an `OnPartialDataReceived` callback. -/
def CompletionEvent.isPartialData : CompletionEvent → Bool
  | .partialDataReceived _ _ => true
  | _ => false

/-- Whether an event is an `OnDataReceived` callback. -/
def CompletionEvent.isFinalData : CompletionEvent → Bool
  | .dataReceived _ _ => true
  | _ => false

/-- C5: for a connected pipe with write capacity `M`, `SendData` with
`size > M` raises no error and issues a write of exactly `M` bytes, the first
`M` bytes of the input; with `size ≤ M` it issues a write of exactly the
input. -/
theorem sendData_truncation (M : Nat) (st : CrPipeSt) (data : List Nat)
    (hc : st.isConnected = true) :
    (M < data.length →
      (SendData M true st data).2 = .writeIssued (data.take M) ∧
        (data.take M).length = M) ∧
    (data.length ≤ M → (SendData M true st data).2 = .writeIssued data) := by
  constructor
  · intro hgt
    have hmin : min data.length M = M := by omega
    constructor
    · simp only [SendData, hc, Bool.true_eq_false, if_false, if_true, hmin]
      rw [take_append_of_length _ _ M (by simp; omega)]
    · simp
      omega
  · intro hle
    have hmin : min data.length M = data.length := by omega
    simp only [SendData, hc, Bool.true_eq_false, if_false, if_true, hmin]
    rw [List.take_length,
      take_append_of_length _ _ data.length (List.take_length data ▸ rfl)]

/-- C5 witness: a connected pipe with write capacity 2 truncates the 3-byte
input `[10, 20, 30]` to `[10, 20]`, and sends the 1-byte input `[10]`
whole. -/
theorem sendData_truncation_witness :
    ((SendData 2 true (CrPipeSt.mk [] [0, 0] false true) [10, 20, 30]).2 =
        .writeIssued [10, 20] ∧
      ([10, 20, 30].take 2).length = 2) ∧
    (SendData 2 true (CrPipeSt.mk [] [0, 0] false true) [10]).2 =
      .writeIssued [10] :=
  ⟨(sendData_truncation 2 (CrPipeSt.mk [] [0, 0] false true) [10, 20, 30]
      rfl).1 (by decide),
    (sendData_truncation 2 (CrPipeSt.mk [] [0, 0] false true) [10]
      rfl).2 (by decide)⟩

/-- C6: a read completion with an OS error disconnects; a read completion
without error invokes `OnPartialDataReceived(self, buffer, bytesRead)` exactly
when the OS reports the `ERROR_MORE_DATA` truncation condition and
`OnDataReceived(self, buffer, bytesRead)` otherwise; a write completion with
an OS error disconnects, and otherwise invokes `OnDataSent(self)`. -/
theorem completion_dispatch (st : CrPipeSt) (err n : Nat) (more : Bool) :
    (err ≠ 0 → OnReadCompleted st err n more = .disconnected ∧
      OnWriteCompleted st err n = .disconnected) ∧
    (err = 0 →
      (OnReadCompleted st err n more =
        if more then .partialDataReceived st.readBuffer n
        else .dataReceived st.readBuffer n) ∧
      OnWriteCompleted st err n = .dataSent) := by
  constructor
  · intro h
    simp [OnReadCompleted, OnWriteCompleted, h]
  · intro h
    simp [OnReadCompleted, OnWriteCompleted, h]

/-- C6 witness: with OS error 5 both completions disconnect; with no error a
truncated read reports partial data, a full read reports data, and a write
completion reports data sent. -/
theorem completion_dispatch_witness :
    (OnReadCompleted (CrPipeSt.mk [1] [] false true) 5 1 true = .disconnected ∧
      OnWriteCompleted (CrPipeSt.mk [1] [] false true) 5 1 = .disconnected) ∧
    (OnReadCompleted (CrPipeSt.mk [1] [] false true) 0 1 true =
        if true then .partialDataReceived [1] 1 else .dataReceived [1] 1) ∧
    OnWriteCompleted (CrPipeSt.mk [1] [] false true) 0 1 = .dataSent :=
  ⟨(completion_dispatch (CrPipeSt.mk [1] [] false true) 5 1 true).1
      (by decide),
    (completion_dispatch (CrPipeSt.mk [1] [] false true) 0 1 true).2 rfl⟩

/-- C8: calling `ListenForData` or `SendData` on a pipe whose connected flag
is false returns immediately: no asynchronous operation is issued, no
disconnect happens, and the pipe state is unchanged. -/
theorem not_connected_noop (N M : Nat) (osAccepts : Bool) (st : CrPipeSt)
    (data : List Nat) (h : st.isConnected = false) :
    ListenForData N osAccepts st = (st, .noop) ∧
    SendData M osAccepts st data = (st, .noop) := by
  constructor
  · simp [ListenForData, h]
  · simp [SendData, h]

/-- C8 witness: on a not-connected pipe, `ListenForData` and `SendData` are
no-ops. -/
theorem not_connected_noop_witness :
    ListenForData 4 true (CrPipeSt.mk [1] [2] false false) =
      (CrPipeSt.mk [1] [2] false false, .noop) ∧
    SendData 4 true (CrPipeSt.mk [1] [2] false false) [9] =
      (CrPipeSt.mk [1] [2] false false, .noop) :=
  not_connected_noop 4 4 true (CrPipeSt.mk [1] [2] false false) [9] rfl

theorem deliverMessage_spec (N : Nat) (hN : 0 < N) :
    ∀ (k : Nat) (st : CrPipeSt) (msg : List Nat), msg.length ≤ k →
      0 < msg.length →
      ∃ l e, deliverMessage N st msg = l ++ [e] ∧
        l.length = (msg.length - 1) / N ∧
        (∀ x ∈ l, x.isPartialData = true ∧ x.chunk.length = N) ∧
        e.isFinalData = true ∧
        ((l ++ [e]).map CompletionEvent.chunk).flatten = msg := by
  intro k
  induction k with
  | zero =>
    intro st msg h1 h2
    omega
  | succ k ih =>
    intro st msg hlen hpos
    rw [deliverMessage]
    by_cases hcase : N < msg.length
    · rw [dif_pos ⟨hN, hcase⟩, show min N msg.length = N from by omega]
      set st1 : CrPipeSt :=
        { st with readBuffer := msg.take N ++ st.readBuffer.drop N } with hst1
      have hrb : st1.readBuffer = msg.take N ++ st.readBuffer.drop N := rfl
      have hev : OnReadCompleted st1 0 N (decide (N < msg.length)) =
          .partialDataReceived st1.readBuffer N := by
        simp [OnReadCompleted, hcase]
      rw [hev]
      obtain ⟨l', e', heq, hlen', hpart', hfin', hflat'⟩ :=
        ih st1 (msg.drop N) (by simp; omega) (by simp; omega)
      rw [heq]
      refine ⟨.partialDataReceived st1.readBuffer N :: l', e',
        by rw [List.cons_append], ?_, ?_, hfin', ?_⟩
      · simp only [List.length_cons, hlen', List.length_drop]
        have hstep : msg.length - 1 = (msg.length - N - 1) + N := by omega
        rw [hstep, Nat.add_div_right _ hN]
      · intro x hx
        rcases List.mem_cons.1 hx with hx | hx
        · subst hx
          refine ⟨rfl, ?_⟩
          simp only [CompletionEvent.chunk]
          rw [take_append_of_length _ _ N (by simp; omega)]
          simp only [List.length_take]
          omega
        · exact hpart' x hx
      · rw [List.cons_append, List.map_cons, List.flatten_cons]
        simp only [CompletionEvent.chunk]
        rw [take_append_of_length _ _ N (by simp; omega), hflat']
        exact List.take_append_drop N msg
    · rw [dif_neg (by omega), show min N msg.length = msg.length from by omega,
        List.take_length]
      set st1 : CrPipeSt :=
        { st with readBuffer := msg ++ st.readBuffer.drop msg.length } with hst1
      have hrb : st1.readBuffer = msg ++ st.readBuffer.drop msg.length := rfl
      have hev : OnReadCompleted st1 0 msg.length (decide (N < msg.length)) =
          .dataReceived st1.readBuffer msg.length := by
        simp [OnReadCompleted, hcase]
      rw [hev]
      refine ⟨[], .dataReceived st1.readBuffer msg.length, by simp, ?_,
        by simp, rfl, ?_⟩
      · simp only [List.length_nil]
        exact (Nat.div_eq_of_lt (by omega)).symm
      · simp only [List.nil_append, List.map_cons, List.map_nil,
          List.flatten_cons, List.flatten_nil, List.append_nil,
          CompletionEvent.chunk]
        exact take_append_of_length _ _ msg.length rfl

/-- C1: a message of size `S` with `S > N` received through a pipe with read
capacity `N` produces exactly `ceil(S / N) - 1` `OnPartialDataReceived`
callbacks, one per `N`-sized chunk and in order, followed by exactly one
`OnDataReceived` callback for the final chunk, and the concatenation of all
delivered chunks equals the original message. -/
theorem overflow_framing (N : Nat) (st : CrPipeSt) (msg : List Nat)
    (hN : 0 < N) (hS : N < msg.length) :
    ∃ l e, deliverMessage N st msg = l ++ [e] ∧
      l.length = (msg.length + N - 1) / N - 1 ∧
      (∀ x ∈ l, x.isPartialData = true ∧ x.chunk.length = N) ∧
      e.isFinalData = true ∧
      ((l ++ [e]).map CompletionEvent.chunk).flatten = msg := by
  obtain ⟨l, e, heq, hlen, hpart, hfin, hflat⟩ :=
    deliverMessage_spec N hN msg.length st msg le_rfl (by omega)
  refine ⟨l, e, heq, ?_, hpart, hfin, hflat⟩
  rw [hlen]
  have h1 : msg.length + N - 1 = (msg.length - 1) + N := by omega
  rw [h1, Nat.add_div_right _ hN]
  omega

/-! ## Client-side connect model (`ClientPipe`, `pipes.h`) -/

/-- OS response to one `ClientPipe::ConnectPipeImmediately` attempt:
whether `CreateFile` returned a valid handle, the `GetLastError` value when it
did not, and whether the subsequent `SetNamedPipeHandleState` call (made only
on a valid handle) succeeds. -/
structure OpenAttempt where
  created : Bool
  lastError : Nat
  setModeOk : Bool
deriving DecidableEq, Repr

/-- OS response to the `WaitNamedPipe` call in `ClientPipe::WaitForPipe`:
whether the wait succeeded, and the `GetLastError` value when it did not. -/
structure WaitAttempt where
  succeeded : Bool
  lastError : Nat
deriving DecidableEq, Repr

/-- Win32 `ERROR_FILE_NOT_FOUND`: what `CreateFile` and `WaitNamedPipe`
report for a pipe name that does not exist. -/
def ERROR_FILE_NOT_FOUND : Nat := 2

/-- Win32 `ERROR_SEM_TIMEOUT`: what `WaitNamedPipe` reports on timeout. -/
def ERROR_SEM_TIMEOUT : Nat := 121

/-- Win32 `ERROR_PIPE_BUSY`: what `CreateFile` reports when the pipe exists
but no instance is currently available. -/
def ERROR_PIPE_BUSY : Nat := 231

/-- `ClientPipe::ConnectPipeImmediately`: opens the pipe with `CreateFile`;
any open failure other than `ERROR_PIPE_BUSY` throws; on a successful open the
pipe is switched to message-read mode (a failure there also throws); returns
whether the pipe is now connected. -/
def ConnectPipeImmediately (a : OpenAttempt) : Except String Bool :=
  if a.created = false ∧ a.lastError ≠ ERROR_PIPE_BUSY then
    .error "Failed to open client-side pipe."
  else if a.created then
    if a.setModeOk then .ok true
    else .error "Failed to set mode of client-side pipe."
  else .ok false

/-- `ClientPipe::WaitForPipe`: `WaitNamedPipe` with the given interval; a
failure other than `ERROR_SEM_TIMEOUT` throws; a timeout returns `false`. -/
def WaitForPipe (w : WaitAttempt) : Except String Bool :=
  if w.succeeded then .ok true
  else if w.lastError ≠ ERROR_SEM_TIMEOUT then .error "Waiting for pipe failed."
  else .ok false

/-- `ClientPipe::Connect`: attempts an immediate open; if that does not
connect, waits for a pipe instance and, if the wait is satisfied, retries the
open exactly once; returns whether a connection was established. `a1` and `a2`
are the OS responses to the first and second open attempts and `w` the
response to the wait. -/
def Connect (a1 : OpenAttempt) (w : WaitAttempt) (a2 : OpenAttempt) :
    Except String Bool :=
  match ConnectPipeImmediately a1 with
  | .error e => .error e
  | .ok true => .ok true
  | .ok false =>
    match WaitForPipe w with
    | .error e => .error e
    | .ok true => ConnectPipeImmediately a2
    | .ok false => .ok false

/-- C3 counterexample: connecting to a nonexistent pipe name does not return
`false`: `CreateFile` fails with `ERROR_FILE_NOT_FOUND`, which is not
`ERROR_PIPE_BUSY`, so `ConnectPipeImmediately` throws and `Connect` raises an
error instead of waiting for the timeout. -/
theorem clientPipe_connect_cx :
    Connect ⟨false, ERROR_FILE_NOT_FOUND, true⟩ ⟨true, 0⟩ ⟨true, 0, true⟩ =
      .error "Failed to open client-side pipe." ∧
    (Except.error "Failed to open client-side pipe." :
      Except String Bool) ≠ .ok false := by
  constructor
  · rfl
  · simp

/-- C3 (amended): `Connect` attempts an immediate open; when that fails
because the pipe is busy (no instance available) it waits up to the given
interval and retries the open exactly once; it returns `true` iff a connection
was established and `false`, raising no error, when the wait times out.
Calling `Connect` against a nonexistent pipe name raises an error (the open
fails with `ERROR_FILE_NOT_FOUND`, not the busy condition), and any other OS
failure during open or wait also raises an error. -/
theorem clientPipe_connect_spec (a1 a2 : OpenAttempt) (w : WaitAttempt) :
    (a1.created = true → a1.setModeOk = true →
      Connect a1 w a2 = .ok true) ∧
    (a1.created = false → a1.lastError = ERROR_PIPE_BUSY →
      w.succeeded = false → w.lastError = ERROR_SEM_TIMEOUT →
      Connect a1 w a2 = .ok false) ∧
    (a1.created = false → a1.lastError ≠ ERROR_PIPE_BUSY →
      Connect a1 w a2 = .error "Failed to open client-side pipe.") ∧
    (a1.created = false → a1.lastError = ERROR_PIPE_BUSY →
      w.succeeded = false → w.lastError ≠ ERROR_SEM_TIMEOUT →
      Connect a1 w a2 = .error "Waiting for pipe failed.") ∧
    (a1.created = false → a1.lastError = ERROR_PIPE_BUSY →
      w.succeeded = true → Connect a1 w a2 = ConnectPipeImmediately a2) ∧
    (Connect a1 w a2 = .ok true ↔
      (a1.created = true ∧ a1.setModeOk = true) ∨
      (a1.created = false ∧ a1.lastError = ERROR_PIPE_BUSY ∧
        w.succeeded = true ∧ a2.created = true ∧ a2.setModeOk = true)) := by
  obtain ⟨c1, e1, m1⟩ := a1
  obtain ⟨c2, e2, m2⟩ := a2
  obtain ⟨ws, we⟩ := w
  cases c1 <;> cases m1 <;> cases c2 <;> cases m2 <;> cases ws <;>
    by_cases h1 : e1 = ERROR_PIPE_BUSY <;>
    by_cases h2 : we = ERROR_SEM_TIMEOUT <;>
    simp_all [Connect, ConnectPipeImmediately, WaitForPipe] <;>
    (try (split <;> simp_all))

/-- C3 witness: a busy first open followed by a timed-out wait returns
`false` without error; an immediately successful open returns `true`. -/
theorem clientPipe_connect_witness :
    Connect ⟨false, ERROR_PIPE_BUSY, true⟩ ⟨false, ERROR_SEM_TIMEOUT⟩
        ⟨true, 0, true⟩ = .ok false ∧
    Connect ⟨true, 0, true⟩ ⟨false, ERROR_SEM_TIMEOUT⟩ ⟨true, 0, true⟩ =
      .ok true :=
  ⟨(clientPipe_connect_spec ⟨false, ERROR_PIPE_BUSY, true⟩ ⟨true, 0, true⟩
      ⟨false, ERROR_SEM_TIMEOUT⟩).2.1 rfl rfl rfl rfl,
    (clientPipe_connect_spec ⟨true, 0, true⟩ ⟨true, 0, true⟩
      ⟨false, ERROR_SEM_TIMEOUT⟩).1 rfl rfl⟩

/-- C1 witness: a 5-byte message through a capacity-2 pipe splits as
`ceil(5/2) - 1 = 2` partial chunks of 2 bytes followed by one final chunk,
concatenating back to the message. -/
theorem overflow_framing_witness :
    ∃ l e, deliverMessage 2 (CrPipeSt.mk [0, 0] [] false true)
        [1, 2, 3, 4, 5] = l ++ [e] ∧
      l.length = (5 + 2 - 1) / 2 - 1 ∧
      (∀ x ∈ l, x.isPartialData = true ∧ x.chunk.length = 2) ∧
      e.isFinalData = true ∧
      ((l ++ [e]).map CompletionEvent.chunk).flatten = [1, 2, 3, 4, 5] :=
  overflow_framing 2 (CrPipeSt.mk [0, 0] [] false true) [1, 2, 3, 4, 5]
    (by decide) (by decide)

/-! ## Single-flight invariant (`CrPipe` + default `CrPipeCallbacks`) -/

/-- An asynchronous pipe operation that has been issued but whose completion
routine has not yet run. -/
inductive AsyncOp where
  | read : AsyncOp
  | write : AsyncOp
deriving DecidableEq, Repr

/-- Abstract per-connection state for the single-flight analysis: the
connected flag, the multiset (as a list) of issued-but-not-completed
asynchronous operations, and whether the pipe has disconnected and deleted
itself. -/
structure ConnSt where
  connected : Bool
  inflight : List AsyncOp
  dead : Bool
deriving DecidableEq, Repr

/-- A freshly constructed `CrPipe`: not connected, nothing in flight. -/
def connInit : ConnSt := ⟨false, [], false⟩

/-- One event processed by the `CrPipe` machinery under the default callback
wiring of `CrPipeCallbacks` (connected → listen, partial → listen,
sent → listen; `OnDataReceived` is application code and may reply with one
`SendData`). A completion may be delivered for any in-flight operation; the
callbacks then issue at most one new operation via `ListenForData` /
`SendData`, each of which can also be rejected synchronously by the OS, in
which case the pipe disconnects and deletes itself.  Note that `ListenForData`
and `SendData` themselves have no guard against an operation already being in
flight — the bound is a consequence of completions being the only points where
new operations are started. -/
inductive ConnStep : ConnSt → ConnSt → Prop where
  /-- `OnConnected` → `OnPipeConnected` (default) → `ListenForData`, read
  accepted. -/
  | connected_listen (s : ConnSt) (hd : s.dead = false)
      (hc : s.connected = false) :
      ConnStep s ⟨true, s.inflight ++ [.read], false⟩
  /-- `OnConnected` → `ListenForData`, read rejected → `Disconnect`. -/
  | connected_listen_rejected (s : ConnSt) (hd : s.dead = false)
      (hc : s.connected = false) :
      ConnStep s ⟨true, [], true⟩
  /-- `OnReadCompleted` with an OS error → `Disconnect`. -/
  | read_error (s : ConnSt) (l1 l2 : List AsyncOp) (hd : s.dead = false)
      (h : s.inflight = l1 ++ .read :: l2) :
      ConnStep s ⟨s.connected, [], true⟩
  /-- `OnReadCompleted`, overflow → `OnPartialDataReceived` (default) →
  `ListenForData`, read accepted (only issued while connected). -/
  | read_partial (s : ConnSt) (l1 l2 : List AsyncOp) (hd : s.dead = false)
      (h : s.inflight = l1 ++ .read :: l2) :
      ConnStep s ⟨s.connected,
        (l1 ++ l2) ++ (if s.connected then [.read] else []), false⟩
  /-- `OnReadCompleted`, overflow → `ListenForData`, read rejected →
  `Disconnect`. -/
  | read_partial_rejected (s : ConnSt) (l1 l2 : List AsyncOp)
      (hd : s.dead = false) (hc : s.connected = true)
      (h : s.inflight = l1 ++ .read :: l2) :
      ConnStep s ⟨true, [], true⟩
  /-- `OnReadCompleted`, complete message → application `OnDataReceived`
  that does not reply. -/
  | read_final_noop (s : ConnSt) (l1 l2 : List AsyncOp) (hd : s.dead = false)
      (h : s.inflight = l1 ++ .read :: l2) :
      ConnStep s ⟨s.connected, l1 ++ l2, false⟩
  /-- `OnReadCompleted`, complete message → application `OnDataReceived`
  replying with one `SendData`, write accepted (only issued while
  connected). -/
  | read_final_send (s : ConnSt) (l1 l2 : List AsyncOp) (hd : s.dead = false)
      (h : s.inflight = l1 ++ .read :: l2) :
      ConnStep s ⟨s.connected,
        (l1 ++ l2) ++ (if s.connected then [.write] else []), false⟩
  /-- `OnReadCompleted`, complete message → `SendData`, write rejected →
  `Disconnect`. -/
  | read_final_send_rejected (s : ConnSt) (l1 l2 : List AsyncOp)
      (hd : s.dead = false) (hc : s.connected = true)
      (h : s.inflight = l1 ++ .read :: l2) :
      ConnStep s ⟨true, [], true⟩
  /-- `OnWriteCompleted` with an OS error → `Disconnect`. -/
  | write_error (s : ConnSt) (l1 l2 : List AsyncOp) (hd : s.dead = false)
      (h : s.inflight = l1 ++ .write :: l2) :
      ConnStep s ⟨s.connected, [], true⟩
  /-- `OnWriteCompleted` → `OnDataSent` (default) → `ListenForData`, read
  accepted (only issued while connected). -/
  | write_done (s : ConnSt) (l1 l2 : List AsyncOp) (hd : s.dead = false)
      (h : s.inflight = l1 ++ .write :: l2) :
      ConnStep s ⟨s.connected,
        (l1 ++ l2) ++ (if s.connected then [.read] else []), false⟩
  /-- `OnWriteCompleted` → `ListenForData`, read rejected → `Disconnect`. -/
  | write_done_rejected (s : ConnSt) (l1 l2 : List AsyncOp)
      (hd : s.dead = false) (hc : s.connected = true)
      (h : s.inflight = l1 ++ .write :: l2) :
      ConnStep s ⟨true, [], true⟩

/-- States a `CrPipe` can reach from construction under the event steps. -/
def ConnReachable (s : ConnSt) : Prop :=
  Relation.ReflTransGen ConnStep connInit s

theorem connStep_inv (s t : ConnSt)
    (hinv : s.inflight.length ≤ 1 ∧ (s.connected = false → s.inflight = []))
    (hstep : ConnStep s t) :
    t.inflight.length ≤ 1 ∧ (t.connected = false → t.inflight = []) := by
  obtain ⟨hlen, hemp⟩ := hinv
  cases hstep with
  | connected_listen hd hc =>
    rw [hemp hc]
    simp
  | connected_listen_rejected hd hc => simp
  | read_error l1 l2 hd h => simp
  | read_partial l1 l2 hd h =>
    rw [h] at hlen
    simp only [List.length_append, List.length_cons] at hlen
    have h1 : l1 = [] := List.length_eq_zero.1 (by omega)
    have h2 : l2 = [] := List.length_eq_zero.1 (by omega)
    subst h1
    subst h2
    constructor
    · split <;> simp
    · intro hc
      simp only at hc
      simp [hc]
  | read_partial_rejected l1 l2 hd hc h => simp
  | read_final_noop l1 l2 hd h =>
    rw [h] at hlen
    simp only [List.length_append, List.length_cons] at hlen
    have h1 : l1 = [] := List.length_eq_zero.1 (by omega)
    have h2 : l2 = [] := List.length_eq_zero.1 (by omega)
    subst h1
    subst h2
    simp
  | read_final_send l1 l2 hd h =>
    rw [h] at hlen
    simp only [List.length_append, List.length_cons] at hlen
    have h1 : l1 = [] := List.length_eq_zero.1 (by omega)
    have h2 : l2 = [] := List.length_eq_zero.1 (by omega)
    subst h1
    subst h2
    constructor
    · split <;> simp
    · intro hc
      simp only at hc
      simp [hc]
  | read_final_send_rejected l1 l2 hd hc h => simp
  | write_error l1 l2 hd h => simp
  | write_done l1 l2 hd h =>
    rw [h] at hlen
    simp only [List.length_append, List.length_cons] at hlen
    have h1 : l1 = [] := List.length_eq_zero.1 (by omega)
    have h2 : l2 = [] := List.length_eq_zero.1 (by omega)
    subst h1
    subst h2
    constructor
    · split <;> simp
    · intro hc
      simp only at hc
      simp [hc]
  | write_done_rejected l1 l2 hd hc h => simp

/-- C7: in every reachable connection state, under the default callback
wiring (connected → listen, partial → listen, sent → listen, with the
application's `OnDataReceived` free to reply), at most one asynchronous
operation is outstanding: a new read or write is only issued after the
previously issued operation's completion has been delivered. -/
theorem single_flight_invariant (s : ConnSt) (h : ConnReachable s) :
    s.inflight.length ≤ 1 := by
  suffices hinv : s.inflight.length ≤ 1 ∧
      (s.connected = false → s.inflight = []) from hinv.1
  induction h with
  | refl => simp [connInit]
  | tail hreach hstep ih => exact connStep_inv _ _ ih hstep

/-- C7 witness: the single-flight bound holds in the state reached after
connecting (one read in flight). -/
theorem single_flight_invariant_witness :
    (ConnSt.mk true [AsyncOp.read] false).inflight.length ≤ 1 :=
  single_flight_invariant (ConnSt.mk true [AsyncOp.read] false)
    (Relation.ReflTransGen.single
      (by
        have h := ConnStep.connected_listen connInit rfl rfl
        simpa [connInit] using h))

/-! ## Server accept loop and shared event (`CrPipeServer`, `concurrency.cpp`) -/

/-- Abstract state of `CrPipeServer::Run`: the signaled state of the shared
`ManualResetEvent` and whether any client-connect operation has completed so
far. -/
structure ServerSt where
  signaled : Bool
  connectCompleted : Bool
deriving DecidableEq, Repr

/-- The state in which `Run` enters its wait loop: the shared event was
created by `ManualResetEvent`'s constructor as
`CreateEvent(nullptr, TRUE, TRUE, nullptr)` — a manual-reset event whose
initial state is signaled — and no client-connect operation has completed
yet. -/
def serverInit : ServerSt := ⟨true, false⟩

/-- Transitions of the `Run` wait loop and its environment. The loop body
contains no `ResetEvent` call, so no transition clears `signaled`; the only
writes to the event are `SetEvent` (on the `ERROR_PIPE_CONNECTED` race in
`CrPipe::Connect`) and the OS signaling a completed connect, both of which set
it. -/
inductive ServerStep : ServerSt → ServerSt → Prop where
  /-- The OS completes a pending `ConnectNamedPipe` (or `CrPipe::Connect`
  hits the already-connected race and calls `SetEvent`): the event becomes
  signaled and a connect has completed. -/
  | osConnectCompleted (s : ServerSt) : ServerStep s ⟨true, true⟩
  /-- `WaitForSingleObjectEx` returns 0 (possible exactly when the event is
  signaled): `Run` takes the client-connected branch — `OnConnected` on the
  current pipe, then a new pipe is created and connected. The event is a
  manual-reset event and `Run` never calls `Reset`, so it stays signaled. -/
  | waitSignaledBranch (s : ServerSt) (h : s.signaled = true) : ServerStep s s
  /-- `WaitForSingleObjectEx` returns `WAIT_IO_COMPLETION`: a completion
  routine ran; the loop body does nothing and the event is untouched. -/
  | waitIoCompletionBranch (s : ServerSt) : ServerStep s s

/-- Server-loop states reachable from the start of `Run`'s wait loop. -/
def ServerReachable (s : ServerSt) : Prop :=
  Relation.ReflTransGen ServerStep serverInit s

/-- C9: the shared event is created in the signaled state with no connect
completed yet; in every reachable loop state the event is still signaled
(`Run` never resets it); consequently the wait can return the signaled result
— taking the client-connected branch — even in the initial state, where no
client-connect operation has completed, i.e. on the very first loop
iteration. -/
theorem shared_event_initially_signaled (s : ServerSt)
    (h : ServerReachable s) :
    s.signaled = true ∧
    serverInit.signaled = true ∧ serverInit.connectCompleted = false ∧
    ServerStep serverInit serverInit := by
  refine ⟨?_, rfl, rfl, ServerStep.waitSignaledBranch serverInit rfl⟩
  induction h with
  | refl => rfl
  | tail hreach hstep ih =>
    cases hstep with
    | osConnectCompleted => rfl
    | waitSignaledBranch hsig => exact hsig
    | waitIoCompletionBranch => exact ih

/-- C9 witness: the claim instantiated at the initial loop state itself. -/
theorem shared_event_initially_signaled_witness :
    serverInit.signaled = true ∧
    serverInit.signaled = true ∧ serverInit.connectCompleted = false ∧
    ServerStep serverInit serverInit :=
  shared_event_initially_signaled serverInit Relation.ReflTransGen.refl

end Ipc
